import Mathlib

/-!
Verification development for the proctor job-orchestration server.

The embedding below models:
- `proctord/utility/utils.go`: the client-facing message constants and the
  `MergeMaps` helper (Go maps are modelled as association lists; Go's heap of
  map references is modelled explicitly where mutation is at issue);
- the Scheduler HTTP handler (`Schedule`, `GetScheduledJobs`) and the
  Executioner (environment building, `Status` resolution), which are not part
  of the provided sources and are therefore modelled from the specification,
  constrained by the test suite in the sources.
-/


/-- Association-list model of a Go `map[string]string`.  Only the extensional
behaviour (lookup) is meaningful, matching Go's unordered map semantics. -/
abbrev GoMap := List (String × String)

/-- Lookup in a Go map: the first entry with the given key. -/
def mapGet : GoMap → String → Option String
  | [], _ => none
  | p :: m, k => if p.1 = k then some p.2 else mapGet m k

/-- Removal of every binding of a key (helper for `mapInsert`). -/
def mapErase : GoMap → String → GoMap
  | [], _ => []
  | p :: m, k => if p.1 = k then mapErase m k else p :: mapErase m k

/-- Assignment `m[k] = v` in a Go map: the new binding shadows any old one. -/
def mapInsert (m : GoMap) (k v : String) : GoMap :=
  (k, v) :: mapErase m k

/-- Key list of a Go map. -/
def mapKeys (m : GoMap) : List String := m.map (fun p => p.1)

/-- Well-formedness of the association-list model: keys are distinct, as they
are in every real Go map. -/
def mapWF (m : GoMap) : Prop := (mapKeys m).Nodup

instance (m : GoMap) : Decidable (mapWF m) := by
  unfold mapWF; infer_instance

/-- Lookup of the last binding of a key (relevant only when the association
list is not well-formed). -/
def mapGetLast (m : GoMap) (k : String) : Option String := mapGet m.reverse k

/-- Left-biased choice on optional values (`a` if present, else `b`). -/
def optOr (a b : Option String) : Option String :=
  match a with
  | some v => some v
  | none => b

/-- MergeMaps from proctord/utility/utils.go: copy all entries of mapOne into
a fresh result map, then all entries of mapTwo, so mapTwo's bindings win. -/
def MergeMaps (mapOne mapTwo : GoMap) : GoMap :=
  let result : GoMap := []
  let result := mapOne.foldl (fun r p => mapInsert r p.1 p.2) result
  mapTwo.foldl (fun r p => mapInsert r p.1 p.2) result

/-- A heap of Go map values: Go maps are reference types, so `MergeMaps`
receives two references and writes only into a freshly allocated map.  A
reference is an index into the cell list. -/
structure GoHeap where
  cells : List GoMap

/-- Auxiliary structural lookup for `heapGet`. -/
def heapGetAux : List GoMap → Nat → GoMap
  | [], _ => []
  | m :: _, 0 => m
  | _ :: t, n + 1 => heapGetAux t n

/-- Auxiliary structural update for `heapSet`. -/
def heapSetAux : List GoMap → Nat → GoMap → List GoMap
  | [], _, _ => []
  | _ :: t, 0, x => x :: t
  | m :: t, n + 1, x => m :: heapSetAux t n x

/-- Read the map value behind a reference (out-of-range reads the empty map;
valid programs only use allocated references). -/
def heapGet (h : GoHeap) (r : Nat) : GoMap :=
  heapGetAux h.cells r

/-- Overwrite the map value behind a reference. -/
def heapSet (h : GoHeap) (r : Nat) (x : GoMap) : GoHeap :=
  ⟨heapSetAux h.cells r x⟩

/-- Allocate a fresh map cell (Go's `make(map[string]string)`), returning the
new heap and the fresh reference. -/
def heapAlloc (h : GoHeap) (x : GoMap) : GoHeap × Nat :=
  (⟨h.cells ++ [x]⟩, h.cells.length)

/-- One `result[k] = v` store of the `MergeMaps` loops: read the result cell,
insert, write it back. -/
def heapAssign (h : GoHeap) (r : Nat) (k v : String) : GoHeap :=
  heapSet h r (mapInsert (heapGet h r) k v)

/-- Heap-level MergeMaps from proctord/utility/utils.go, mutation made
explicit: allocate `result`, then `result[k] = v` for every entry of mapOne,
then for every entry of mapTwo, returning the reference to `result`.  The
argument cells are only ever read. -/
def MergeMapsH (h : GoHeap) (mapOne mapTwo : Nat) : GoHeap × Nat :=
  let alloc := heapAlloc h []
  let h1 := alloc.1
  let result := alloc.2
  let h2 := (heapGet h1 mapOne).foldl (fun hh p => heapAssign hh result p.1 p.2) h1
  let h3 := (heapGet h2 mapTwo).foldl (fun hh p => heapAssign hh result p.1 p.2) h2
  (h3, result)

/-- Message constant from proctord/utility/utils.go. -/
def ClientError : String := "malformed request"

/-- Message constant from proctord/utility/utils.go. -/
def NonExistentProcClientError : String := "proc name non existent"

/-- Message constant from proctord/utility/utils.go. -/
def InvalidCronExpressionClientError : String := "Cron expression invalid"

/-- Message constant from proctord/utility/utils.go. -/
def InvalidEmailIdClientError : String := "Provided invalid Email ID"

/-- Message constant from proctord/utility/utils.go. -/
def InvalidTagError : String := "Tag(s) are missing"

/-- Message constant from proctord/utility/utils.go. -/
def DuplicateJobNameArgsClientError : String :=
  "provided duplicate combination of job name and args for scheduling"

/-- Message constant from proctord/utility/utils.go. -/
def ServerError : String := "Something went wrong"

/-- Status constant from proctord/utility/utils.go. -/
def JobSucceeded : String := "SUCCEEDED"

/-- Status constant from proctord/utility/utils.go. -/
def JobFailed : String := "FAILED"

/-- Status constant from proctord/utility/utils.go. -/
def JobWaiting : String := "WAITING"

/-- Status constant from proctord/utility/utils.go. -/
def JobExecutionStatusFetchError : String := "JOB_EXECUTION_STATUS_FETCH_ERROR"

/-- Status constant from proctord/utility/utils.go. -/
def NoDefinitiveJobExecutionStatusFound : String :=
  "NO_DEFINITIVE_JOB_EXECUTION_STATUS_FOUND"

/-- Header-key constant from proctord/utility/utils.go. -/
def UserEmailHeaderKey : String := "Email-Id"

/-- Character-list test: does `l` start with `p`? -/
def listStartsWith : List Char → List Char → Bool
  | [], _ => true
  | _ :: _, [] => false
  | a :: p, b :: l => a = b && listStartsWith p l

/-- Character-list test: does `p` occur contiguously inside `l`? -/
def listHasSub (p : List Char) : List Char → Bool
  | [] => listStartsWith p []
  | b :: l => listStartsWith p (b :: l) || listHasSub p l

/-- Substring containment on strings (Go's `strings.Contains`). -/
def strContains (s pat : String) : Bool := listHasSub pat.data s.data

/-- Splitting a character list at a separator (Go's `strings.Split`): splitting
the empty string yields one empty field. -/
def splitOnChar (sep : Char) : List Char → List (List Char)
  | [] => [[]]
  | c :: rest =>
    let r := splitOnChar sep rest
    if c = sep then [] :: r
    else
      match r with
      | [] => [[c]]
      | h :: t => (c :: h) :: t

/-- Comma-splitting of a string into strings. -/
def splitComma (s : String) : List String :=
  (splitOnChar ',' s.data).map (fun l => String.mk l)

/-- Whitespace fields of a string (Go's `strings.Fields`): split on spaces and
drop empty pieces. -/
def fields (s : String) : List String :=
  ((splitOnChar ' ' s.data).map (fun l => String.mk l)).filter (fun f => f ≠ "")

/-- Decimal digit test. -/
def isDigitCh (c : Char) : Bool := '0' ≤ c && c ≤ '9'

/-- Numeric value of a non-empty all-digit string, if it is one. -/
def parseNum (s : String) : Option Nat :=
  if s.data ≠ [] && s.data.all isDigitCh then
    some (s.data.foldl (fun acc c => 10 * acc + (c.toNat - '0'.toNat)) 0)
  else none

/-- Modelled from the spec: one base element of a cron field within the field's
numeric bounds — `*`, a single value, or a range `lo-hi`.  (The Scheduler's
cron validator is not among the provided sources; §4.1 step 2 requires the
standard 5-field cron grammar.) -/
def validCronBase (lo hi : Nat) (s : String) : Bool :=
  if s = "*" then true
  else
    match splitOnChar '-' s.data with
    | [a] =>
        match parseNum (String.mk a) with
        | some n => lo ≤ n && n ≤ hi
        | none => false
    | [a, b] =>
        match parseNum (String.mk a), parseNum (String.mk b) with
        | some n, some m => lo ≤ n && n ≤ m && m ≤ hi
        | _, _ => false
    | _ => false

/-- Modelled from the spec: a cron field element with an optional `/step`. -/
def validCronElem (lo hi : Nat) (s : String) : Bool :=
  match splitOnChar '/' s.data with
  | [r] => validCronBase lo hi (String.mk r)
  | [r, st] =>
      validCronBase lo hi (String.mk r) &&
        (match parseNum (String.mk st) with
         | some n => 0 < n
         | none => false)
  | _ => false

/-- Modelled from the spec: a whole cron field, a comma-list of elements. -/
def validCronField (lo hi : Nat) (s : String) : Bool :=
  s ≠ "" && (splitComma s).all (validCronElem lo hi)

/-- Modelled from the spec: the Scheduler's cron check (§4.1 step 2) —
exactly five whitespace-separated fields (minute, hour, day-of-month, month,
day-of-week), each conforming to the standard numeric cron grammar. -/
def validCron (s : String) : Bool :=
  match fields s with
  | [f1, f2, f3, f4, f5] =>
      validCronField 0 59 f1 && validCronField 0 23 f2 &&
      validCronField 1 31 f3 && validCronField 1 12 f4 &&
      validCronField 0 6 f5
  | _ => false

/-- Modelled from the spec: a syntactically valid email address for the
notification list (§4.1 step 3) — one `@` separating a non-empty local part
from a non-empty domain that contains an interior dot. -/
def validEmail (s : String) : Bool :=
  match splitOnChar '@' s.data with
  | [lp, dp] =>
      lp ≠ [] && dp ≠ [] &&
        ((splitOnChar '.' dp).length ≥ 2 && (splitOnChar '.' dp).all (fun q => q ≠ []))
  | _ => false

/-- Modelled from the spec: the notification email list check (§4.1 step 3) —
the empty string is the empty list and passes; otherwise every comma-separated
element must be a valid address. -/
def validEmails (s : String) : Bool :=
  if s = "" then true else (splitComma s).all validEmail

/-- Modelled from the spec: the tag list check (§4.1 step 4) — at least one
non-empty comma-separated tag. -/
def validTags (s : String) : Bool :=
  (splitComma s).any (fun t => t ≠ "")

/-- A scheduled job as carried in the HTTP body (fields from the
`ScheduledJob` struct exercised by the test suite: ID, Name, Args, Time,
NotificationEmails, Tags). -/
structure ScheduledJob where
  id : String
  name : String
  args : GoMap
  time : String
  notificationEmails : String
  tags : String
deriving DecidableEq

/-- Job metadata held by the Metadata Registry (existence is what the
Scheduler checks; the image is what the Executioner resolves). -/
structure Metadata where
  imageName : String
deriving DecidableEq

/-- A schedule record in the Persistent Schedule Store's format (the
`postgres.JobsSchedule` struct of the tests). -/
structure JobsSchedule where
  id : String
  name : String
  args : GoMap
  time : String
  notificationEmails : String
  tags : String
  userEmail : String
  enabled : Bool
deriving DecidableEq

/-- Result of parsing the request body as a `ScheduledJob`. -/
inductive ParseResult where
  | ok (job : ScheduledJob)
  | malformed
deriving DecidableEq

/-- External calls a Scheduler handler can make, in order; used to state that
validation failures make no registry/store call. -/
inductive SchedCall where
  | getJobMetadata (name : String)
  | insertScheduledJob (name tags time notificationEmails userEmail : String) (args : GoMap)
  | getEnabledScheduledJobs
deriving DecidableEq

/-- Response body: plain text for errors, JSON-encoded payload for success
(the scheduling endpoints' documented asymmetry). -/
inductive Body where
  | text (s : String)
  | jobJson (j : ScheduledJob)
  | jobListJson (l : List ScheduledJob)
deriving DecidableEq

/-- Outcome of one Scheduler handler invocation: HTTP status, response body,
and the trace of external calls made. -/
structure ScheduleOutcome where
  status : Nat
  body : Body
  calls : List SchedCall
deriving DecidableEq

/-- Modelled from the spec: Scheduler.Schedule (§4.1; the handler itself is
not among the provided sources, only its test suite is).  Steps: parse body;
validate cron, then emails, then tags, failing fast with no external call;
read the creator identity from the Email-Id header (empty when absent); look
the job name up in the Metadata Registry, classifying its error by message
text (§9: a "nil returned" error is not-found → 404, anything else → 500);
insert via the Schedule Store, classifying its error by message text (§9: a
duplicate-key text is the (name,args) uniqueness violation → 409, anything
else → 500); on success respond 201 with the job carrying the
store-generated ID.  The registry and store are oracles; `insert` receives
the arguments in the Go call order (name, tags, time, notificationEmails,
userEmail, args). -/
def scheduleHandler (body : ParseResult) (headers : GoMap)
    (registry : String → Except String Metadata)
    (insert : String → String → String → String → String → GoMap → Except String String) :
    ScheduleOutcome :=
  match body with
  | .malformed => ⟨400, .text ClientError, []⟩
  | .ok job =>
    if !(validCron job.time) then ⟨400, .text InvalidCronExpressionClientError, []⟩
    else if !(validEmails job.notificationEmails) then
      ⟨400, .text InvalidEmailIdClientError, []⟩
    else if !(validTags job.tags) then ⟨400, .text InvalidTagError, []⟩
    else
      let userEmail := (mapGet headers UserEmailHeaderKey).getD ""
      match registry job.name with
      | .error e =>
          if strContains e "nil returned" then
            ⟨404, .text NonExistentProcClientError, [.getJobMetadata job.name]⟩
          else ⟨500, .text ServerError, [.getJobMetadata job.name]⟩
      | .ok _ =>
          match insert job.name job.tags job.time job.notificationEmails userEmail job.args with
          | .error e =>
              if strContains e "duplicate key value" then
                ⟨409, .text DuplicateJobNameArgsClientError,
                  [.getJobMetadata job.name,
                   .insertScheduledJob job.name job.tags job.time job.notificationEmails userEmail job.args]⟩
              else
                ⟨500, .text ServerError,
                  [.getJobMetadata job.name,
                   .insertScheduledJob job.name job.tags job.time job.notificationEmails userEmail job.args]⟩
          | .ok newId =>
              ⟨201, .jobJson { job with id := newId },
                [.getJobMetadata job.name,
                 .insertScheduledJob job.name job.tags job.time job.notificationEmails userEmail job.args]⟩

/-- Conversion of a store record to the response shape (ID preserved). -/
def toScheduledJob (j : JobsSchedule) : ScheduledJob :=
  ⟨j.id, j.name, j.args, j.time, j.notificationEmails, j.tags⟩

/-- Modelled from the spec: Scheduler.GetScheduledJobs (§4.1; handler not in
the provided sources).  It asks the store for the enabled schedules only; a
store error yields 500 with the verbatim generic message, success yields 200
with the converted list. -/
def getScheduledJobsHandler (store : Except String (List JobsSchedule)) :
    ScheduleOutcome :=
  match store with
  | .error _ => ⟨500, .text ServerError, [.getEnabledScheduledJobs]⟩
  | .ok l => ⟨200, .jobListJson (l.map toScheduledJob), [.getEnabledScheduledJobs]⟩

/-- Terminal state of one execution unit (pod) as the cluster reports it. -/
inductive UnitState where
  | succeeded
  | failed
  | running
deriving DecidableEq

/-- A cluster response to a status query: either the query itself failed, or
a list of per-unit states. -/
inductive ClusterResponse where
  | queryFailed
  | units (l : List UnitState)
deriving DecidableEq

/-- Modelled from the spec: the Executioner's Status resolution policy
(§4.2; the Executioner is not among the provided sources, its status
constants are in proctord/utility/utils.go).  Query failure →
JOB_EXECUTION_STATUS_FETCH_ERROR; any abnormally terminated unit → FAILED;
all units terminated successfully → SUCCEEDED; all units still in progress →
WAITING; anything else (conflicting or partial unit states, or no units) →
NO_DEFINITIVE_JOB_EXECUTION_STATUS_FOUND. -/
def jobExecutionStatus : ClusterResponse → String
  | .queryFailed => JobExecutionStatusFetchError
  | .units l =>
      if l.any (fun u => u = UnitState.failed) then JobFailed
      else if l ≠ [] && l.all (fun u => u = UnitState.succeeded) then JobSucceeded
      else if l ≠ [] && l.all (fun u => u = UnitState.running) then JobWaiting
      else NoDefinitiveJobExecutionStatusFound

/-- Modelled from the spec: the Executioner's execution-environment build
(§4.2 step 3) — arguments merged with secrets via `utility.MergeMaps`, the
secrets as the second map so their bindings take precedence. -/
def buildExecutionEnv (args secrets : GoMap) : GoMap :=
  MergeMaps args secrets

theorem optOr_none_right (a : Option String) : optOr a none = a := by
  cases a <;> rfl

theorem optOr_assoc (a b c : Option String) :
    optOr (optOr a b) c = optOr a (optOr b c) := by
  cases a <;> rfl

theorem optOr_if (c : Prop) [Decidable c] (v : String) (b : Option String) :
    optOr (if c then some v else none) b = if c then some v else b := by
  by_cases h : c <;> simp [optOr, h]

theorem mapGet_erase_ne (m : GoMap) (k k' : String) (hne : k' ≠ k) :
    mapGet (mapErase m k) k' = mapGet m k' := by
  induction m with
  | nil => rfl
  | cons p t ih =>
      by_cases hp : p.1 = k
      · have hp' : ¬ p.1 = k' := by
          intro h; exact hne (h ▸ hp)
        have hkk : ¬ k = k' := fun hh => hne hh.symm
        simp [mapErase, hp, mapGet, hp', ih, hkk]
      · simp only [mapErase, hp, if_false, mapGet]
        by_cases hk' : p.1 = k' <;> simp [hk', ih]

theorem mapGet_insert (m : GoMap) (k v k' : String) :
    mapGet (mapInsert m k v) k' = if k = k' then some v else mapGet m k' := by
  unfold mapInsert
  by_cases h : k = k'
  · simp [mapGet, h]
  · have h' : k' ≠ k := fun hh => h hh.symm
    simp [mapGet, h, mapGet_erase_ne m k k' h']

theorem mapGet_append (m1 m2 : GoMap) (k : String) :
    mapGet (m1 ++ m2) k = optOr (mapGet m1 k) (mapGet m2 k) := by
  induction m1 with
  | nil => rfl
  | cons p t ih =>
      by_cases h : p.1 = k
      · simp [mapGet, h, optOr]
      · simp [mapGet, h, ih]

theorem mapGet_single (p : String × String) (k : String) :
    mapGet [p] k = if p.1 = k then some p.2 else none := by
  by_cases h : p.1 = k <;> simp [mapGet, h]

theorem mapGet_foldl_insert (l : GoMap) (acc : GoMap) (k : String) :
    mapGet (l.foldl (fun r p => mapInsert r p.1 p.2) acc) k
      = optOr (mapGetLast l k) (mapGet acc k) := by
  induction l generalizing acc with
  | nil => rfl
  | cons p t ih =>
      have step : mapGet (mapInsert acc p.1 p.2) k
          = if p.1 = k then some p.2 else mapGet acc k := mapGet_insert acc p.1 p.2 k
      calc mapGet ((p :: t).foldl (fun r q => mapInsert r q.1 q.2) acc) k
          = mapGet (t.foldl (fun r q => mapInsert r q.1 q.2) (mapInsert acc p.1 p.2)) k := rfl
        _ = optOr (mapGetLast t k) (mapGet (mapInsert acc p.1 p.2) k) := ih _
        _ = optOr (mapGetLast t k) (if p.1 = k then some p.2 else mapGet acc k) := by rw [step]
        _ = optOr (mapGetLast (p :: t) k) (mapGet acc k) := by
            unfold mapGetLast
            rw [List.reverse_cons, mapGet_append, optOr_assoc, mapGet_single, optOr_if]

/-- Characterisation of MergeMaps lookups: a key's value comes from the last
binding in mapTwo if present, else from the last binding in mapOne. -/
theorem mergeMaps_get (m1 m2 : GoMap) (k : String) :
    mapGet (MergeMaps m1 m2) k = optOr (mapGetLast m2 k) (mapGetLast m1 k) := by
  unfold MergeMaps
  rw [mapGet_foldl_insert, mapGet_foldl_insert]
  simp [mapGet, optOr_none_right]

theorem mapGet_eq_none_iff (m : GoMap) (k : String) :
    mapGet m k = none ↔ k ∉ mapKeys m := by
  induction m with
  | nil => simp [mapGet, mapKeys]
  | cons p t ih =>
      by_cases h : p.1 = k
      · simp [mapGet, h, mapKeys]
      · simp [mapGet, h, mapKeys, ih]
        intro hk
        exact fun hh => h hh.symm

theorem mapKeys_reverse (m : GoMap) : mapKeys m.reverse = (mapKeys m).reverse := by
  unfold mapKeys
  exact List.map_reverse _ _

theorem mapKeys_cons (p : String × String) (t : GoMap) :
    mapKeys (p :: t) = p.1 :: mapKeys t := rfl

/-- On a well-formed map, first and last binding coincide. -/
theorem mapGetLast_eq_mapGet (m : GoMap) (hwf : mapWF m) (k : String) :
    mapGetLast m k = mapGet m k := by
  induction m with
  | nil => rfl
  | cons p t ih =>
      unfold mapWF at hwf
      rw [mapKeys_cons] at hwf
      have hhead : p.1 ∉ mapKeys t := (List.nodup_cons.mp hwf).1
      have hwf' : mapWF t := (List.nodup_cons.mp hwf).2
      unfold mapGetLast
      rw [List.reverse_cons, mapGet_append, mapGet_single]
      by_cases h : p.1 = k
      · have hnone : mapGet t.reverse k = none := by
          rw [mapGet_eq_none_iff, mapKeys_reverse, List.mem_reverse]
          rw [← h]
          exact hhead
        simp [mapGet, h, hnone, optOr]
      · have hlast : mapGet t.reverse k = mapGet t k := ih hwf'
        simp [mapGet, h, optOr_none_right, hlast]

theorem heapGetAux_append_left (l : List GoMap) (x : GoMap) (r : Nat)
    (hr : r < l.length) : heapGetAux (l ++ [x]) r = heapGetAux l r := by
  induction l generalizing r with
  | nil => cases hr
  | cons m t ih =>
      cases r with
      | zero => rfl
      | succ n => exact ih n (Nat.lt_of_succ_lt_succ hr)

theorem heapGetAux_append_self (l : List GoMap) (x : GoMap) :
    heapGetAux (l ++ [x]) l.length = x := by
  induction l with
  | nil => rfl
  | cons m t ih => exact ih

theorem heapGetAux_setAux_ne (l : List GoMap) (r r' : Nat) (x : GoMap)
    (hne : r' ≠ r) : heapGetAux (heapSetAux l r x) r' = heapGetAux l r' := by
  induction l generalizing r r' with
  | nil => rfl
  | cons m t ih =>
      cases r with
      | zero =>
          cases r' with
          | zero => exact absurd rfl hne
          | succ n => rfl
      | succ n =>
          cases r' with
          | zero => rfl
          | succ n' => exact ih n n' (fun hh => hne (by rw [hh]))

theorem heapGetAux_setAux_self (l : List GoMap) (r : Nat) (x : GoMap)
    (hr : r < l.length) : heapGetAux (heapSetAux l r x) r = x := by
  induction l generalizing r with
  | nil => cases hr
  | cons m t ih =>
      cases r with
      | zero => rfl
      | succ n => exact ih n (Nat.lt_of_succ_lt_succ hr)

theorem heapSetAux_length (l : List GoMap) (r : Nat) (x : GoMap) :
    (heapSetAux l r x).length = l.length := by
  induction l generalizing r with
  | nil => rfl
  | cons m t ih =>
      cases r with
      | zero => rfl
      | succ n => simp [heapSetAux, ih]

theorem heapGet_assign_ne (h : GoHeap) (r r' : Nat) (k v : String)
    (hne : r' ≠ r) : heapGet (heapAssign h r k v) r' = heapGet h r' := by
  unfold heapAssign heapSet heapGet
  exact heapGetAux_setAux_ne _ _ _ _ hne

theorem heapGet_foldl_assign_ne (l : GoMap) (h : GoHeap) (r r' : Nat)
    (hne : r' ≠ r) :
    heapGet (l.foldl (fun hh p => heapAssign hh r p.1 p.2) h) r' = heapGet h r' := by
  induction l generalizing h with
  | nil => rfl
  | cons p t ih =>
      calc heapGet ((p :: t).foldl (fun hh q => heapAssign hh r q.1 q.2) h) r'
          = heapGet (t.foldl (fun hh q => heapAssign hh r q.1 q.2) (heapAssign h r p.1 p.2)) r' := rfl
        _ = heapGet (heapAssign h r p.1 p.2) r' := ih _
        _ = heapGet h r' := heapGet_assign_ne _ _ _ _ _ hne

theorem heapAssign_length (h : GoHeap) (r : Nat) (k v : String) :
    (heapAssign h r k v).cells.length = h.cells.length := by
  unfold heapAssign heapSet
  exact heapSetAux_length _ _ _

theorem heapGet_foldl_assign_self (l : GoMap) (h : GoHeap) (r : Nat)
    (hr : r < h.cells.length) :
    heapGet (l.foldl (fun hh p => heapAssign hh r p.1 p.2) h) r
      = l.foldl (fun m p => mapInsert m p.1 p.2) (heapGet h r) := by
  induction l generalizing h with
  | nil => rfl
  | cons p t ih =>
      have hr' : r < (heapAssign h r p.1 p.2).cells.length := by
        rw [heapAssign_length]; exact hr
      have hself : heapGet (heapAssign h r p.1 p.2) r = mapInsert (heapGet h r) p.1 p.2 := by
        unfold heapAssign heapSet heapGet
        exact heapGetAux_setAux_self _ _ _ hr
      calc heapGet ((p :: t).foldl (fun hh q => heapAssign hh r q.1 q.2) h) r
          = heapGet (t.foldl (fun hh q => heapAssign hh r q.1 q.2) (heapAssign h r p.1 p.2)) r := rfl
        _ = t.foldl (fun m q => mapInsert m q.1 q.2) (heapGet (heapAssign h r p.1 p.2) r) := ih _ hr'
        _ = t.foldl (fun m q => mapInsert m q.1 q.2) (mapInsert (heapGet h r) p.1 p.2) := by rw [hself]
        _ = (p :: t).foldl (fun m q => mapInsert m q.1 q.2) (heapGet h r) := rfl

/-- The heap-level merge leaves every pre-existing cell untouched and stores
exactly the list-level `MergeMaps` of the two argument maps in the fresh
cell. -/
theorem mergeMapsH_spec (h : GoHeap) (r1 r2 : Nat)
    (h1 : r1 < h.cells.length) (h2 : r2 < h.cells.length) :
    (∀ r', r' < h.cells.length →
        heapGet (MergeMapsH h r1 r2).1 r' = heapGet h r') ∧
    heapGet (MergeMapsH h r1 r2).1 (MergeMapsH h r1 r2).2
      = MergeMaps (heapGet h r1) (heapGet h r2) ∧
    (MergeMapsH h r1 r2).2 ≠ r1 ∧ (MergeMapsH h r1 r2).2 ≠ r2 := by
  unfold MergeMapsH heapAlloc
  simp only []
  have hres : ∀ r', r' < h.cells.length → r' ≠ h.cells.length :=
    fun r' hr' => Nat.ne_of_lt hr'
  have hget1 : heapGet ⟨h.cells ++ [[]]⟩ r1 = heapGet h r1 := by
    unfold heapGet; exact heapGetAux_append_left _ _ _ h1
  have hget2 : heapGet ⟨h.cells ++ [[]]⟩ r2 = heapGet h r2 := by
    unfold heapGet; exact heapGetAux_append_left _ _ _ h2
  have hgetfresh : heapGet ⟨h.cells ++ [[]]⟩ h.cells.length = [] := by
    unfold heapGet; exact heapGetAux_append_self _ _
  have hpres1 : ∀ (l : GoMap) (hh : GoHeap) r',
      r' < h.cells.length →
      heapGet (l.foldl (fun hh p => heapAssign hh h.cells.length p.1 p.2) hh) r'
        = heapGet hh r' :=
    fun l hh r' hr' => heapGet_foldl_assign_ne l hh _ r' (hres r' hr')
  constructor
  · intro r' hr'
    rw [hpres1 _ _ r' hr', hpres1 _ _ r' hr']
    unfold heapGet
    exact heapGetAux_append_left _ _ _ hr'
  constructor
  · have hlen1 : h.cells.length < (GoHeap.mk (h.cells ++ [[]])).cells.length := by
      simp
    have stage1 :
        heapGet ((heapGet ⟨h.cells ++ [[]]⟩ r1).foldl
            (fun hh p => heapAssign hh h.cells.length p.1 p.2) ⟨h.cells ++ [[]]⟩)
          h.cells.length
        = (heapGet h r1).foldl (fun m p => mapInsert m p.1 p.2) [] := by
      rw [heapGet_foldl_assign_self _ _ _ hlen1, hget1, hgetfresh]
    have hread2 :
        heapGet ((heapGet ⟨h.cells ++ [[]]⟩ r1).foldl
            (fun hh p => heapAssign hh h.cells.length p.1 p.2) ⟨h.cells ++ [[]]⟩) r2
        = heapGet h r2 := by
      rw [hpres1 _ _ r2 h2]; exact hget2
    have hlen2 : h.cells.length <
        ((heapGet ⟨h.cells ++ [[]]⟩ r1).foldl
            (fun hh p => heapAssign hh h.cells.length p.1 p.2) ⟨h.cells ++ [[]]⟩).cells.length := by
      have hkeep : ∀ (l : GoMap) (hh : GoHeap),
          (l.foldl (fun hh p => heapAssign hh h.cells.length p.1 p.2) hh).cells.length
            = hh.cells.length := by
        intro l
        induction l with
        | nil => intro hh; rfl
        | cons p t ih =>
            intro hh
            calc ((p :: t).foldl (fun hh q => heapAssign hh h.cells.length q.1 q.2) hh).cells.length
                = (t.foldl (fun hh q => heapAssign hh h.cells.length q.1 q.2)
                    (heapAssign hh h.cells.length p.1 p.2)).cells.length := rfl
              _ = (heapAssign hh h.cells.length p.1 p.2).cells.length := ih _
              _ = hh.cells.length := heapAssign_length _ _ _ _
      rw [hkeep]
      simp
    rw [hread2, heapGet_foldl_assign_self _ _ _ hlen2, stage1]
    rfl
  constructor
  · exact fun hh => hres r1 h1 hh.symm
  · exact fun hh => hres r2 h2 hh.symm

theorem mapGetLast_eq_none_iff (m : GoMap) (k : String) :
    mapGetLast m k = none ↔ mapGet m k = none := by
  unfold mapGetLast
  rw [mapGet_eq_none_iff, mapGet_eq_none_iff, mapKeys_reverse, List.mem_reverse]

theorem mem_mapKeys_iff (m : GoMap) (k : String) :
    k ∈ mapKeys m ↔ mapGet m k ≠ none := by
  constructor
  · intro hk hnone
    exact (mapGet_eq_none_iff m k).mp hnone hk
  · intro hne
    by_contra hk
    exact hne ((mapGet_eq_none_iff m k).mpr hk)

theorem optOr_eq_none_iff (a b : Option String) :
    optOr a b = none ↔ a = none ∧ b = none := by
  cases a <;> simp [optOr]

theorem mergeMaps_mem_keys (m1 m2 : GoMap) (k : String) :
    k ∈ mapKeys (MergeMaps m1 m2) ↔ k ∈ mapKeys m1 ∨ k ∈ mapKeys m2 := by
  rw [mem_mapKeys_iff, mem_mapKeys_iff, mem_mapKeys_iff, mergeMaps_get]
  constructor
  · intro hne
    by_contra hboth
    push_neg at hboth
    have h1 : mapGet m1 k = none := by
      by_contra hh; exact hh (by tauto)
    have h2 : mapGet m2 k = none := by
      by_contra hh; exact hh (by tauto)
    exact hne ((optOr_eq_none_iff _ _).mpr
      ⟨(mapGetLast_eq_none_iff m2 k).mpr h2, (mapGetLast_eq_none_iff m1 k).mpr h1⟩)
  · intro hor hnone
    rcases (optOr_eq_none_iff _ _).mp hnone with ⟨h2, h1⟩
    rcases hor with h | h
    · exact h ((mapGetLast_eq_none_iff m1 k).mp h1)
    · exact h ((mapGetLast_eq_none_iff m2 k).mp h2)

/-- C1: for every argument mapping and secret mapping sharing a key, the
execution environment built by the Executioner maps that key to the secret's
value — secrets, merged second through `MergeMaps`, take precedence over
caller-supplied arguments. -/
theorem executioner_secrets_take_precedence (args secrets : GoMap) (k v : String)
    (hwf : mapWF secrets) (hk : mapGet secrets k = some v) :
    mapGet (buildExecutionEnv args secrets) k = some v := by
  unfold buildExecutionEnv
  rw [mergeMaps_get, mapGetLast_eq_mapGet secrets hwf, hk]
  rfl

theorem executioner_secrets_take_precedence_witness :
    mapGet (buildExecutionEnv [("TOKEN", "caller-supplied")] [("TOKEN", "secret-value")]) "TOKEN"
      = some "secret-value" :=
  executioner_secrets_take_precedence [("TOKEN", "caller-supplied")]
    [("TOKEN", "secret-value")] "TOKEN" "secret-value" (by decide) (by decide)

/-- C9: MergeMaps writes only into a freshly allocated map — the argument
cells are unchanged and the result is a new reference — and the result's key
set is exactly the union of the arguments' key sets; merging with the empty
map on either side gives a map extensionally equal to the other argument. -/
theorem mergeMaps_union_fresh_no_mutation (h : GoHeap) (r1 r2 : Nat) (k : String)
    (h1 : r1 < h.cells.length) (h2 : r2 < h.cells.length)
    (w1 : mapWF (heapGet h r1)) (w2 : mapWF (heapGet h r2)) :
    heapGet (MergeMapsH h r1 r2).1 r1 = heapGet h r1 ∧
    heapGet (MergeMapsH h r1 r2).1 r2 = heapGet h r2 ∧
    (MergeMapsH h r1 r2).2 ≠ r1 ∧ (MergeMapsH h r1 r2).2 ≠ r2 ∧
    (k ∈ mapKeys (heapGet (MergeMapsH h r1 r2).1 (MergeMapsH h r1 r2).2) ↔
      k ∈ mapKeys (heapGet h r1) ∨ k ∈ mapKeys (heapGet h r2)) ∧
    (heapGet h r1 = [] →
      mapGet (heapGet (MergeMapsH h r1 r2).1 (MergeMapsH h r1 r2).2) k
        = mapGet (heapGet h r2) k) ∧
    (heapGet h r2 = [] →
      mapGet (heapGet (MergeMapsH h r1 r2).1 (MergeMapsH h r1 r2).2) k
        = mapGet (heapGet h r1) k) := by
  obtain ⟨hpres, hcontent, hne1, hne2⟩ := mergeMapsH_spec h r1 r2 h1 h2
  refine ⟨hpres r1 h1, hpres r2 h2, hne1, hne2, ?_, ?_, ?_⟩
  · rw [hcontent]
    exact mergeMaps_mem_keys _ _ k
  · intro hemp
    rw [hcontent, hemp, mergeMaps_get, mapGetLast_eq_mapGet _ w2]
    have : mapGetLast ([] : GoMap) k = none := rfl
    cases hg : mapGet (heapGet h r2) k <;> simp [optOr, this]
  · intro hemp
    rw [hcontent, hemp, mergeMaps_get, mapGetLast_eq_mapGet _ w1]
    rfl

theorem mergeMaps_union_fresh_no_mutation_witness :
    heapGet (MergeMapsH ⟨[[("a", "1")], [("a", "2"), ("b", "3")]]⟩ 0 1).1 0 = [("a", "1")] ∧
    heapGet (MergeMapsH ⟨[[("a", "1")], [("a", "2"), ("b", "3")]]⟩ 0 1).1 1
      = [("a", "2"), ("b", "3")] ∧
    (MergeMapsH ⟨[[("a", "1")], [("a", "2"), ("b", "3")]]⟩ 0 1).2 ≠ 0 ∧
    (MergeMapsH ⟨[[("a", "1")], [("a", "2"), ("b", "3")]]⟩ 0 1).2 ≠ 1 ∧
    ("b" ∈ mapKeys (heapGet (MergeMapsH ⟨[[("a", "1")], [("a", "2"), ("b", "3")]]⟩ 0 1).1
        (MergeMapsH ⟨[[("a", "1")], [("a", "2"), ("b", "3")]]⟩ 0 1).2) ↔
      "b" ∈ mapKeys [("a", "1")] ∨ "b" ∈ mapKeys [("a", "2"), ("b", "3")]) ∧
    (([("a", "1")] : GoMap) = [] →
      mapGet (heapGet (MergeMapsH ⟨[[("a", "1")], [("a", "2"), ("b", "3")]]⟩ 0 1).1
        (MergeMapsH ⟨[[("a", "1")], [("a", "2"), ("b", "3")]]⟩ 0 1).2) "b"
        = mapGet [("a", "2"), ("b", "3")] "b") ∧
    (([("a", "2"), ("b", "3")] : GoMap) = [] →
      mapGet (heapGet (MergeMapsH ⟨[[("a", "1")], [("a", "2"), ("b", "3")]]⟩ 0 1).1
        (MergeMapsH ⟨[[("a", "1")], [("a", "2"), ("b", "3")]]⟩ 0 1).2) "b"
        = mapGet [("a", "1")] "b") :=
  mergeMaps_union_fresh_no_mutation ⟨[[("a", "1")], [("a", "2"), ("b", "3")]]⟩ 0 1 "b"
    (by decide) (by decide) (by decide) (by decide)

/-- C2: a schedule request whose cron expression fails the 5-field grammar is
answered 400 with the cron-invalid message, and neither the Metadata Registry
nor the Schedule Store is called. -/
theorem schedule_invalid_cron_rejected_locally (job : ScheduledJob) (headers : GoMap)
    (registry : String → Except String Metadata)
    (insert : String → String → String → String → String → GoMap → Except String String)
    (hc : validCron job.time = false) :
    scheduleHandler (.ok job) headers registry insert
      = ⟨400, .text InvalidCronExpressionClientError, []⟩ := by
  unfold scheduleHandler
  simp [hc]

theorem schedule_invalid_cron_rejected_locally_witness :
    scheduleHandler
        (.ok ⟨"", "non-existent", [], "2 * invalid *", "foo@bar.com,bar@foo.com", "tag-one,tag-two"⟩)
        [] (fun _ => .ok ⟨""⟩) (fun _ _ _ _ _ _ => .ok "123")
      = ⟨400, .text InvalidCronExpressionClientError, []⟩ :=
  schedule_invalid_cron_rejected_locally
    ⟨"", "non-existent", [], "2 * invalid *", "foo@bar.com,bar@foo.com", "tag-one,tag-two"⟩
    [] (fun _ => .ok ⟨""⟩) (fun _ _ _ _ _ _ => .ok "123") (by decide)

/-- C3 counterexample: two registry failures that are both plain errors and
differ only in their message text receive different HTTP statuses (404
versus 500), exactly as the test suite demands, so Schedule's not-found
classification inspects the error's human-readable text rather than a
sentinel or typed value. -/
theorem schedule_classification_counterexample :
    (scheduleHandler
        (.ok ⟨"", "non-existent", [], "* 2 * * *", "foo@bar.com,bar@foo.com", "tag-one,tag-two"⟩)
        [] (fun _ => .error "redigo: nil returned") (fun _ _ _ _ _ _ => .ok "123")).status = 404 ∧
    (scheduleHandler
        (.ok ⟨"", "non-existent", [], "* 2 * * *", "foo@bar.com,bar@foo.com", "tag-one,tag-two"⟩)
        [] (fun _ => .error "any error") (fun _ _ _ _ _ _ => .ok "123")).status = 500 := by
  exact ⟨by decide, by decide⟩

/-- C3 amended: Scheduler.Schedule classifies Metadata Registry and Schedule
Store errors by inspecting the error's message text — a registry error whose
text contains "nil returned" is not-found (404), a store error whose text
contains "duplicate key value" is the uniqueness violation (409) — and every
unclassified error maps to ServerError (500). -/
theorem schedule_classification_is_textual (job : ScheduledJob) (headers : GoMap)
    (reg1 reg2 : String → Except String Metadata)
    (insert : String → String → String → String → String → GoMap → Except String String)
    (md : Metadata) (e e' : String)
    (hc : validCron job.time = true)
    (he : validEmails job.notificationEmails = true)
    (ht : validTags job.tags = true)
    (h1 : reg1 job.name = .error e)
    (h2 : reg2 job.name = .ok md)
    (h3 : insert job.name job.tags job.time job.notificationEmails
        ((mapGet headers UserEmailHeaderKey).getD "") job.args = .error e') :
    scheduleHandler (.ok job) headers reg1 insert
      = (if strContains e "nil returned"
         then ⟨404, .text NonExistentProcClientError, [.getJobMetadata job.name]⟩
         else ⟨500, .text ServerError, [.getJobMetadata job.name]⟩) ∧
    scheduleHandler (.ok job) headers reg2 insert
      = (if strContains e' "duplicate key value"
         then ⟨409, .text DuplicateJobNameArgsClientError,
               [.getJobMetadata job.name,
                .insertScheduledJob job.name job.tags job.time job.notificationEmails
                  ((mapGet headers UserEmailHeaderKey).getD "") job.args]⟩
         else ⟨500, .text ServerError,
               [.getJobMetadata job.name,
                .insertScheduledJob job.name job.tags job.time job.notificationEmails
                  ((mapGet headers UserEmailHeaderKey).getD "") job.args]⟩) := by
  constructor
  · unfold scheduleHandler
    simp only [hc, he, ht, Bool.not_true, Bool.false_eq_true, if_false, h1]
  · unfold scheduleHandler
    simp only [hc, he, ht, Bool.not_true, Bool.false_eq_true, if_false, h2, h3]

theorem schedule_classification_is_textual_witness :
    scheduleHandler
        (.ok ⟨"", "any-job", [], "* 2 * * *", "foo@bar.com,bar@foo.com", "tag-one,tag-two"⟩)
        [] (fun _ => .error "redigo: nil returned") (fun _ _ _ _ _ _ => .error "any-error")
      = (if strContains "redigo: nil returned" "nil returned"
         then ⟨404, .text NonExistentProcClientError, [.getJobMetadata "any-job"]⟩
         else ⟨500, .text ServerError, [.getJobMetadata "any-job"]⟩) ∧
    scheduleHandler
        (.ok ⟨"", "any-job", [], "* 2 * * *", "foo@bar.com,bar@foo.com", "tag-one,tag-two"⟩)
        [] (fun _ => .ok ⟨""⟩) (fun _ _ _ _ _ _ => .error "any-error")
      = (if strContains "any-error" "duplicate key value"
         then ⟨409, .text DuplicateJobNameArgsClientError,
               [.getJobMetadata "any-job",
                .insertScheduledJob "any-job" "tag-one,tag-two" "* 2 * * *"
                  "foo@bar.com,bar@foo.com" "" []]⟩
         else ⟨500, .text ServerError,
               [.getJobMetadata "any-job",
                .insertScheduledJob "any-job" "tag-one,tag-two" "* 2 * * *"
                  "foo@bar.com,bar@foo.com" "" []]⟩) :=
  schedule_classification_is_textual
    ⟨"", "any-job", [], "* 2 * * *", "foo@bar.com,bar@foo.com", "tag-one,tag-two"⟩
    [] (fun _ => .error "redigo: nil returned") (fun _ => .ok ⟨""⟩)
    (fun _ _ _ _ _ _ => .error "any-error") ⟨""⟩ "redigo: nil returned" "any-error"
    (by decide) (by decide) (by decide) rfl rfl rfl

/-- C4: a schedule request with valid cron, valid emails, non-empty tags, an
existing job name and a successful store insert is answered 201, the response
carrying the input's fields unchanged plus the non-empty store-generated
ID. -/
theorem schedule_success_returns_input_with_id (job : ScheduledJob) (headers : GoMap)
    (registry : String → Except String Metadata)
    (insert : String → String → String → String → String → GoMap → Except String String)
    (md : Metadata) (newId : String)
    (hc : validCron job.time = true)
    (he : validEmails job.notificationEmails = true)
    (ht : validTags job.tags = true)
    (hr : registry job.name = .ok md)
    (hs : insert job.name job.tags job.time job.notificationEmails
        ((mapGet headers UserEmailHeaderKey).getD "") job.args = .ok newId)
    (hid : newId ≠ "") :
    scheduleHandler (.ok job) headers registry insert
      = ⟨201, .jobJson ⟨newId, job.name, job.args, job.time, job.notificationEmails, job.tags⟩,
         [.getJobMetadata job.name,
          .insertScheduledJob job.name job.tags job.time job.notificationEmails
            ((mapGet headers UserEmailHeaderKey).getD "") job.args]⟩ ∧
    newId ≠ "" := by
  refine ⟨?_, hid⟩
  unfold scheduleHandler
  simp only [hc, he, ht, Bool.not_true, Bool.false_eq_true, if_false, hr, hs]

theorem schedule_success_returns_input_with_id_witness :
    scheduleHandler
        (.ok ⟨"", "any-job", [], "* 2 * * *", "foo@bar.com,bar@foo.com", "tag-one,tag-two"⟩)
        [("Email-Id", "mrproctor@example.com")] (fun _ => .ok ⟨""⟩)
        (fun _ _ _ _ _ _ => .ok "123")
      = ⟨201, .jobJson ⟨"123", "any-job", [], "* 2 * * *", "foo@bar.com,bar@foo.com", "tag-one,tag-two"⟩,
         [.getJobMetadata "any-job",
          .insertScheduledJob "any-job" "tag-one,tag-two" "* 2 * * *"
            "foo@bar.com,bar@foo.com" "mrproctor@example.com" []]⟩ ∧
    ("123" : String) ≠ "" :=
  schedule_success_returns_input_with_id
    ⟨"", "any-job", [], "* 2 * * *", "foo@bar.com,bar@foo.com", "tag-one,tag-two"⟩
    [("Email-Id", "mrproctor@example.com")] (fun _ => .ok ⟨""⟩)
    (fun _ _ _ _ _ _ => .ok "123") ⟨""⟩ "123"
    (by decide) (by decide) (by decide) rfl rfl (by decide)

/-- C5: past validation and metadata lookup, a store error reporting the
(name, args) uniqueness violation (its text carries the duplicate-key
marker) is answered 409 with the duplicate-job message, and any other store
error is answered 500 with the generic server-error message. -/
theorem schedule_store_error_conflict_or_server_error (job : ScheduledJob) (headers : GoMap)
    (registry : String → Except String Metadata)
    (insert : String → String → String → String → String → GoMap → Except String String)
    (md : Metadata) (e : String)
    (hc : validCron job.time = true)
    (he : validEmails job.notificationEmails = true)
    (ht : validTags job.tags = true)
    (hr : registry job.name = .ok md)
    (hs : insert job.name job.tags job.time job.notificationEmails
        ((mapGet headers UserEmailHeaderKey).getD "") job.args = .error e) :
    (strContains e "duplicate key value" = true →
        scheduleHandler (.ok job) headers registry insert
          = ⟨409, .text DuplicateJobNameArgsClientError,
             [.getJobMetadata job.name,
              .insertScheduledJob job.name job.tags job.time job.notificationEmails
                ((mapGet headers UserEmailHeaderKey).getD "") job.args]⟩) ∧
    (strContains e "duplicate key value" = false →
        scheduleHandler (.ok job) headers registry insert
          = ⟨500, .text ServerError,
             [.getJobMetadata job.name,
              .insertScheduledJob job.name job.tags job.time job.notificationEmails
                ((mapGet headers UserEmailHeaderKey).getD "") job.args]⟩) := by
  constructor
  · intro hdup
    unfold scheduleHandler
    simp only [hc, he, ht, Bool.not_true, Bool.false_eq_true, if_false, hr, hs, hdup, if_true]
  · intro hother
    unfold scheduleHandler
    simp only [hc, he, ht, Bool.not_true, Bool.false_eq_true, if_false, hr, hs, hother]

theorem schedule_store_error_conflict_or_server_error_witness :
    (strContains "pq: duplicate key value violates unique constraint" "duplicate key value" = true →
        scheduleHandler
            (.ok ⟨"", "any-job", [], "* 2 * * *", "foo@bar.com,bar@foo.com", "tag-one,tag-two"⟩)
            [] (fun _ => .ok ⟨""⟩)
            (fun _ _ _ _ _ _ => .error "pq: duplicate key value violates unique constraint")
          = ⟨409, .text DuplicateJobNameArgsClientError,
             [.getJobMetadata "any-job",
              .insertScheduledJob "any-job" "tag-one,tag-two" "* 2 * * *"
                "foo@bar.com,bar@foo.com" "" []]⟩) ∧
    (strContains "pq: duplicate key value violates unique constraint" "duplicate key value" = false →
        scheduleHandler
            (.ok ⟨"", "any-job", [], "* 2 * * *", "foo@bar.com,bar@foo.com", "tag-one,tag-two"⟩)
            [] (fun _ => .ok ⟨""⟩)
            (fun _ _ _ _ _ _ => .error "pq: duplicate key value violates unique constraint")
          = ⟨500, .text ServerError,
             [.getJobMetadata "any-job",
              .insertScheduledJob "any-job" "tag-one,tag-two" "* 2 * * *"
                "foo@bar.com,bar@foo.com" "" []]⟩) :=
  schedule_store_error_conflict_or_server_error
    ⟨"", "any-job", [], "* 2 * * *", "foo@bar.com,bar@foo.com", "tag-one,tag-two"⟩
    [] (fun _ => .ok ⟨""⟩)
    (fun _ _ _ _ _ _ => .error "pq: duplicate key value violates unique constraint") ⟨""⟩
    "pq: duplicate key value violates unique constraint"
    (by decide) (by decide) (by decide) rfl rfl

theorem validEmails_false_of_invalid_elem (s : String) (hne : s ≠ "")
    (hinv : ∃ e ∈ splitComma s, validEmail e = false) :
    validEmails s = false := by
  unfold validEmails
  rw [if_neg hne]
  rcases hinv with ⟨e, hmem, hval⟩
  cases hall : (splitComma s).all validEmail
  · rfl
  · exfalso
    have := List.all_eq_true.mp hall e hmem
    rw [hval] at this
    cases this

/-- C6: the empty notification email string passes validation, while a
non-empty list containing any syntactically invalid element makes Schedule
answer 400 with the invalid-email message before any external call. -/
theorem schedule_email_list_validation (job : ScheduledJob) (headers : GoMap)
    (registry : String → Except String Metadata)
    (insert : String → String → String → String → String → GoMap → Except String String)
    (hc : validCron job.time = true) :
    validEmails "" = true ∧
    (job.notificationEmails ≠ "" →
      (∃ e ∈ splitComma job.notificationEmails, validEmail e = false) →
      scheduleHandler (.ok job) headers registry insert
        = ⟨400, .text InvalidEmailIdClientError, []⟩) := by
  refine ⟨rfl, ?_⟩
  intro hne hinv
  have hf : validEmails job.notificationEmails = false :=
    validEmails_false_of_invalid_elem _ hne hinv
  unfold scheduleHandler
  simp [hc, hf]

theorem schedule_email_list_validation_witness :
    validEmails "" = true ∧
    (("user-test.com" : String) ≠ "" →
      (∃ e ∈ splitComma "user-test.com", validEmail e = false) →
      scheduleHandler
          (.ok ⟨"", "non-existent", [], "* 2 * * *", "user-test.com", "tag-one,tag-two"⟩)
          [] (fun _ => .ok ⟨""⟩) (fun _ _ _ _ _ _ => .ok "123")
        = ⟨400, .text InvalidEmailIdClientError, []⟩) :=
  schedule_email_list_validation
    ⟨"", "non-existent", [], "* 2 * * *", "user-test.com", "tag-one,tag-two"⟩
    [] (fun _ => .ok ⟨""⟩) (fun _ _ _ _ _ _ => .ok "123") (by decide)

/-- C7: Status resolution is total — every cluster response maps to exactly
one of the five canonical status strings, never an empty or unmapped result,
and WAITING only arises when every unit is genuinely still in progress, so an
ambiguous or partial response never resolves to WAITING. -/
theorem executioner_status_total (r : ClusterResponse) :
    (jobExecutionStatus r = JobSucceeded ∨ jobExecutionStatus r = JobFailed ∨
     jobExecutionStatus r = JobWaiting ∨ jobExecutionStatus r = JobExecutionStatusFetchError ∨
     jobExecutionStatus r = NoDefinitiveJobExecutionStatusFound) ∧
    jobExecutionStatus r ≠ "" ∧
    (∀ l, r = ClusterResponse.units l → jobExecutionStatus r = JobWaiting →
      l ≠ [] ∧ l.all (fun u => u = UnitState.running) = true) := by
  have htot : jobExecutionStatus r = JobSucceeded ∨ jobExecutionStatus r = JobFailed ∨
      jobExecutionStatus r = JobWaiting ∨ jobExecutionStatus r = JobExecutionStatusFetchError ∨
      jobExecutionStatus r = NoDefinitiveJobExecutionStatusFound := by
    cases r with
    | queryFailed => exact Or.inr (Or.inr (Or.inr (Or.inl rfl)))
    | units l =>
        simp only [jobExecutionStatus]
        by_cases h1 : l.any (fun u => u = UnitState.failed) = true
        · rw [if_pos h1]; exact Or.inr (Or.inl rfl)
        · rw [if_neg h1]
          by_cases h2 : (decide (l ≠ []) && l.all (fun u => u = UnitState.succeeded)) = true
          · rw [if_pos h2]; exact Or.inl rfl
          · rw [if_neg h2]
            by_cases h3 : (decide (l ≠ []) && l.all (fun u => u = UnitState.running)) = true
            · rw [if_pos h3]; exact Or.inr (Or.inr (Or.inl rfl))
            · rw [if_neg h3]; exact Or.inr (Or.inr (Or.inr (Or.inr rfl)))
  refine ⟨htot, ?_, ?_⟩
  · rcases htot with h | h | h | h | h <;> rw [h] <;> decide
  · intro l hl hw
    subst hl
    simp only [jobExecutionStatus] at hw
    by_cases h1 : l.any (fun u => u = UnitState.failed) = true
    · rw [if_pos h1] at hw
      exact absurd hw (by decide)
    · rw [if_neg h1] at hw
      by_cases h2 : (decide (l ≠ []) && l.all (fun u => u = UnitState.succeeded)) = true
      · rw [if_pos h2] at hw
        exact absurd hw (by decide)
      · rw [if_neg h2] at hw
        by_cases h3 : (decide (l ≠ []) && l.all (fun u => u = UnitState.running)) = true
        · simp only [Bool.and_eq_true, decide_eq_true_eq] at h3
          exact h3
        · rw [if_neg h3] at hw
          exact absurd hw (by decide)

theorem executioner_status_total_witness :
    (jobExecutionStatus (.units [UnitState.succeeded, UnitState.running]) = JobSucceeded ∨
     jobExecutionStatus (.units [UnitState.succeeded, UnitState.running]) = JobFailed ∨
     jobExecutionStatus (.units [UnitState.succeeded, UnitState.running]) = JobWaiting ∨
     jobExecutionStatus (.units [UnitState.succeeded, UnitState.running])
       = JobExecutionStatusFetchError ∨
     jobExecutionStatus (.units [UnitState.succeeded, UnitState.running])
       = NoDefinitiveJobExecutionStatusFound) ∧
    jobExecutionStatus (.units [UnitState.succeeded, UnitState.running]) ≠ "" ∧
    (∀ l, ClusterResponse.units [UnitState.succeeded, UnitState.running]
        = ClusterResponse.units l →
      jobExecutionStatus (.units [UnitState.succeeded, UnitState.running]) = JobWaiting →
      l ≠ [] ∧ l.all (fun u => u = UnitState.running) = true) :=
  executioner_status_total (.units [UnitState.succeeded, UnitState.running])

/-- C8: GetScheduledJobs consults only the store's enabled-schedules query;
a store error is answered 500 with the generic server-error message verbatim,
and success is answered 200 with the records converted ID-preservingly. -/
theorem getScheduledJobs_spec (res : Except String (List JobsSchedule)) :
    (getScheduledJobsHandler res).calls = [SchedCall.getEnabledScheduledJobs] ∧
    (∀ e, res = .error e →
        getScheduledJobsHandler res
          = ⟨500, .text ServerError, [.getEnabledScheduledJobs]⟩) ∧
    (∀ l, res = .ok l →
        getScheduledJobsHandler res
          = ⟨200, .jobListJson (l.map toScheduledJob), [.getEnabledScheduledJobs]⟩ ∧
        (l.map toScheduledJob).map ScheduledJob.id = l.map JobsSchedule.id) := by
  refine ⟨?_, ?_, ?_⟩
  · cases res <;> rfl
  · intro e he
    subst he
    rfl
  · intro l hl
    subst hl
    refine ⟨rfl, ?_⟩
    have hfun : ScheduledJob.id ∘ toScheduledJob = JobsSchedule.id := funext (fun j => rfl)
    rw [List.map_map, hfun]

theorem getScheduledJobs_spec_witness :
    (getScheduledJobsHandler (.ok [⟨"some-id", "", [], "", "", "", "", true⟩])).calls
      = [SchedCall.getEnabledScheduledJobs] ∧
    (∀ e : String, (Except.ok [(⟨"some-id", "", [], "", "", "", "", true⟩ : JobsSchedule)]
          : Except String (List JobsSchedule))
        = Except.error e →
      getScheduledJobsHandler (.ok [⟨"some-id", "", [], "", "", "", "", true⟩])
        = ⟨500, .text ServerError, [.getEnabledScheduledJobs]⟩) ∧
    (∀ l, (Except.ok [(⟨"some-id", "", [], "", "", "", "", true⟩ : JobsSchedule)]
          : Except String (List JobsSchedule))
        = Except.ok l →
      getScheduledJobsHandler (.ok [⟨"some-id", "", [], "", "", "", "", true⟩])
        = ⟨200, .jobListJson (l.map toScheduledJob), [.getEnabledScheduledJobs]⟩ ∧
      (l.map toScheduledJob).map ScheduledJob.id = l.map JobsSchedule.id) :=
  getScheduledJobs_spec (.ok [⟨"some-id", "", [], "", "", "", "", true⟩])

/-- C10: Schedule reads the creator identity from the Email-Id header and
passes it unchanged to the store's insert call; an absent header yields the
empty string and scheduling still proceeds to the insert with no rejection of
the missing identity. -/
theorem schedule_creator_identity_from_header (job : ScheduledJob) (headers : GoMap)
    (registry : String → Except String Metadata)
    (insert : String → String → String → String → String → GoMap → Except String String)
    (md : Metadata)
    (hc : validCron job.time = true)
    (he : validEmails job.notificationEmails = true)
    (ht : validTags job.tags = true)
    (hr : registry job.name = .ok md) :
    (scheduleHandler (.ok job) headers registry insert).calls
      = [SchedCall.getJobMetadata job.name,
         SchedCall.insertScheduledJob job.name job.tags job.time job.notificationEmails
           ((mapGet headers UserEmailHeaderKey).getD "") job.args] ∧
    (∀ v, mapGet headers UserEmailHeaderKey = some v →
        (mapGet headers UserEmailHeaderKey).getD "" = v) ∧
    (mapGet headers UserEmailHeaderKey = none →
        (mapGet headers UserEmailHeaderKey).getD "" = "") := by
  refine ⟨?_, ?_, ?_⟩
  · cases hs : insert job.name job.tags job.time job.notificationEmails
        ((mapGet headers UserEmailHeaderKey).getD "") job.args with
    | error e =>
        unfold scheduleHandler
        simp only [hc, he, ht, Bool.not_true, Bool.false_eq_true, if_false, hr, hs]
        by_cases hb : strContains e "duplicate key value" = true
        · rw [if_pos hb]
        · rw [if_neg hb]
    | ok newId =>
        unfold scheduleHandler
        simp only [hc, he, ht, Bool.not_true, Bool.false_eq_true, if_false, hr, hs]
  · intro v hv
    rw [hv]
    rfl
  · intro hv
    rw [hv]
    rfl

theorem schedule_creator_identity_from_header_witness :
    (scheduleHandler
        (.ok ⟨"", "any-job", [], "* 2 * * *", "foo@bar.com,bar@foo.com", "tag-one,tag-two"⟩)
        [] (fun _ => .ok ⟨""⟩) (fun _ _ _ _ _ _ => .ok "123")).calls
      = [SchedCall.getJobMetadata "any-job",
         SchedCall.insertScheduledJob "any-job" "tag-one,tag-two" "* 2 * * *"
           "foo@bar.com,bar@foo.com" ((mapGet [] UserEmailHeaderKey).getD "") []] ∧
    (∀ v, mapGet [] UserEmailHeaderKey = some v →
        (mapGet [] UserEmailHeaderKey).getD "" = v) ∧
    (mapGet [] UserEmailHeaderKey = none →
        (mapGet [] UserEmailHeaderKey).getD "" = "") :=
  schedule_creator_identity_from_header
    ⟨"", "any-job", [], "* 2 * * *", "foo@bar.com,bar@foo.com", "tag-one,tag-two"⟩
    [] (fun _ => .ok ⟨""⟩) (fun _ _ _ _ _ _ => .ok "123") ⟨""⟩
    (by decide) (by decide) (by decide) rfl

